import Mathlib

/-!
Verification of the QueryCache engine of react-query-from-scratch.

This file is a shallow embedding of the cache engine found in the
repository sources (constants.ts, query-types.ts, the QueryCache class
with directQuery/backgroundQuery, use-mutation.ts), together with
theorems settling the specification claims about it.

Modelling conventions:
- a cache key is its canonical string (hashKey output);
- a fetch function is identified by a numeric id; invoking it is recorded
  as an observation rather than executed;
- JS `undefined` data is `Option.none`, a `null` error field is
  `Option.none`, and a stored Error object is represented by its message;
- the asynchronous body of directQuery/backgroundQuery is split at its
  `await handlePromise` suspension point into a synchronous start phase
  and a settlement phase.  The start phase registers the promise in the
  in-flight map and appends the continuation (with the values the JS
  closure captured) to a list of pending settlements; a settlement step
  may later run any pending continuation with a resolve or reject
  outcome, mirroring the single-threaded interleaving model;
- `Date.now()` is an explicit `now` argument of every operation;
- timers are modelled by an armed flag per key; a timer fire is an
  explicit step that is only possible while the flag is armed, since
  `clearTimeout` would otherwise have prevented it.
-/

namespace RQ

/-- Canonical string cache key (the output of hashKey). -/
abbrev Key := String

/-- Identity of a fetch function value supplied by a caller. -/
abbrev FnId := Nat

/-- A coerced Error value, represented by its message string. -/
abbrev Err := String

/-- JS truthiness of a data value of type T, as used by the `!value`
test: falsy values (0, empty string, false, NaN) count as absent. -/
class JsTruthy (T : Type) where
  truthy : T → Bool

/-- Truthiness of an optional cached value: `undefined` (none) and a
falsy value are both untruthy, exactly the JS `!entry?.state.data`
test applied to a possibly missing field. -/
def dataTruthy {T : Type} [JsTruthy T] : Option T → Bool
  | none => false
  | some v => JsTruthy.truthy v

/-- JS number truthiness: 0 is falsy, every other number truthy. -/
instance : JsTruthy Int :=
  ⟨fun n => n != 0⟩

/-- constants.ts: DEFAULT_STALE_TIME. -/
def DEFAULT_STALE_TIME : Int := 0

/-- constants.ts: FORCE_STALE_TIME, the force-stale sentinel timestamp. -/
def FORCE_STALE_TIME : Int := -1

/-- constants.ts: ONE_SECOND_IN_MS. -/
def ONE_SECOND_IN_MS : Int := 1000

/-- constants.ts: ONE_MINUTE_IN_MS. -/
def ONE_MINUTE_IN_MS : Int := 60 * ONE_SECOND_IN_MS

/-- constants.ts: DEFAULT_GC_TIME. -/
def DEFAULT_GC_TIME : Int := 5 * ONE_MINUTE_IN_MS

/-- constants.ts: FIRST_FETCH_SUCCESS_BACKGROUND_FETCH_BUFFER_WINDOW_MS. -/
def FIRST_FETCH_SUCCESS_BACKGROUND_FETCH_BUFFER_WINDOW_MS : Int := 250

/-- utils.ts getDifferenceInMs: endTime - startTime. -/
def getDifferenceInMs (startTime endTime : Int) : Int :=
  endTime - startTime

/-- query-types.ts: the status tags of the QueryState tagged union. -/
inductive Status where
  | idle
  | loading
  | fetching
  | firstSuccess
  | success
  | error
deriving DecidableEq, Repr

/-- query-types.ts QueryState: status, data, error and lastUpdatedAt. -/
structure QueryState (T : Type) where
  status : Status
  data : Option T
  error : Option Err
  lastUpdatedAt : Int
deriving DecidableEq, Repr

/-- query-cache.ts CacheEntry: a state plus an optional recorded fetch
function. -/
structure CacheEntry (T : Type) where
  state : QueryState T
  queryFn : Option FnId
deriving DecidableEq, Repr

/-- Continuation of an issued fetch promise: what the enclosing
directQuery or backgroundQuery body does once the promise settles,
holding the values the JS closure captured at start time.  For a direct
fetch, hadData is the negation of the captured isFirstFetchForQuery,
i.e. the JS truthiness of the pre-fetch entry's data. -/
inductive Pending (T : Type) where
  | direct (hadData : Bool) (fn : FnId)
  | background (prevData : Option T) (prevLastUpdatedAt : Int) (fn : FnId)
deriving DecidableEq, Repr

/-- Observable effects of one engine operation: the keys whose subscriber
sets were notified (in order), the fetch functions invoked, and an error
surfaced (thrown or rejected) to the caller of the operation. -/
structure Obs where
  notified : List Key := []
  invoked : List FnId := []
  surfaced : Option Err := none
deriving DecidableEq, Repr

/-- Sequencing of observations of two consecutive steps. -/
def Obs.seq (a b : Obs) : Obs :=
  ⟨a.notified ++ b.notified, a.invoked ++ b.invoked,
    if a.surfaced.isSome then a.surfaced else b.surfaced⟩

/-- The QueryCache instance state: the entry store, the in-flight
registry, the subscriber registry, the per-key GC timer flags, the gcQueue
set, the not-yet-settled fetch continuations, and the configuration. -/
structure QueryCache (T : Type) where
  cache : Key → Option (CacheEntry T)
  promisesInFlight : Key → Bool
  subscribers : Key → List Nat
  gcTimeouts : Key → Bool
  gcQueue : Key → Bool
  pending : List (Key × Pending T)
  gcTime : Int
  staleTime : Int

variable {T : Type} [JsTruthy T]

/-- The constructor state: all maps empty, configured times as given
(`new QueryCache(config)` with defaults applied). -/
def QueryCache.init (T : Type) (staleTime gcTime : Int) : QueryCache T :=
  ⟨fun _ => none, fun _ => false, fun _ => [], fun _ => false, fun _ => false,
    [], gcTime, staleTime⟩

/-- QueryCache.set: `this.cache.set(queryKey, { state, queryFn })`. -/
def QueryCache.set (c : QueryCache T) (k : Key) (st : QueryState T)
    (fn : Option FnId) : QueryCache T :=
  { c with cache := fun q => if q = k then some ⟨st, fn⟩ else c.cache q }

/-- Write or delete the in-flight registration of a key. -/
def QueryCache.setInFlight (c : QueryCache T) (k : Key) (b : Bool) :
    QueryCache T :=
  { c with promisesInFlight := fun q => if q = k then b else c.promisesInFlight q }

/-- QueryCache.subscribe: add the callback to the key's subscriber set. -/
def subscribe (c : QueryCache T) (k : Key) (cb : Nat) : QueryCache T :=
  let subs := c.subscribers k
  let subs' := if cb ∈ subs then subs else subs ++ [cb]
  { c with subscribers := fun q => if q = k then subs' else c.subscribers q }

/-- QueryCache.unsubscribe: remove the callback; when the set becomes
empty, delete the key from the subscriber map, add it to gcQueue and
scheduleGC (cancel any previous timer and arm a fresh one). -/
def unsubscribe (c : QueryCache T) (k : Key) (cb : Nat) : QueryCache T :=
  let subs := c.subscribers k
  if subs.isEmpty then c
  else
    let subs' := subs.filter (fun x => x ≠ cb)
    if subs'.isEmpty then
      { c with
        subscribers := fun q => if q = k then [] else c.subscribers q,
        gcQueue := fun q => if q = k then true else c.gcQueue q,
        gcTimeouts := fun q => if q = k then true else c.gcTimeouts q }
    else
      { c with subscribers := fun q => if q = k then subs' else c.subscribers q }

/-- The body of the scheduled GC timeout firing for a key: delete the key
from the entry store, the in-flight registry, the subscriber registry and
the timer map.  It can only run while the timer is still armed. -/
def gcFire (c : QueryCache T) (k : Key) : QueryCache T :=
  if c.gcTimeouts k then
    { c with
      cache := fun q => if q = k then none else c.cache q,
      promisesInFlight := fun q => if q = k then false else c.promisesInFlight q,
      subscribers := fun q => if q = k then [] else c.subscribers q,
      gcTimeouts := fun q => if q = k then false else c.gcTimeouts q }
  else c

/-- QueryCache.clear: clear every map.  Pending promise continuations are
not cancelled by clear, matching the JS closures that keep running. -/
def clearAll (c : QueryCache T) : QueryCache T :=
  { c with
    cache := fun _ => none,
    promisesInFlight := fun _ => false,
    subscribers := fun _ => [],
    gcTimeouts := fun _ => false,
    gcQueue := fun _ => false }

/-- QueryCache.directQuery up to its `await`: dedup on an in-flight
promise or a loading entry; otherwise either populate synchronously from
initialData (when no data is cached yet), or transition to loading
(storing no queryFn, as the source passes none there), invoke the fetch
function and register the promise, capturing for the settlement the
source's isFirstFetchForQuery test `!entry?.state.data` on the
pre-transition entry — JS truthiness, so an absent entry, undefined data
and falsy data all count as having no data. -/
def directQueryStart (c : QueryCache T) (k : Key) (fn : FnId)
    (initialData : Option T) (now : Int) : QueryCache T × Obs :=
  let entry := c.cache k
  if c.promisesInFlight k ∨ entry.map (fun e => e.state.status) = some Status.loading then
    (c, {})
  else if initialData.isSome ∧ (entry.bind (fun e => e.state.data)).isNone then
    (c.set k ⟨Status.firstSuccess, initialData, none, now⟩ (some fn), ⟨[k], [], none⟩)
  else
    let hadData := dataTruthy (entry.bind (fun e => e.state.data))
    let c1 := c.set k ⟨Status.loading, none, none, now⟩ none
    ({ c1.setInFlight k true with
        pending := c1.pending ++ [(k, Pending.direct hadData fn)] },
      ⟨[k], [fn], none⟩)

/-- QueryCache.backgroundQuery up to its `await`: silently return unless
no promise is in flight, the entry exists, its status is success or
first-success (the separate fetching check of the source is subsumed),
the elapsed time exceeds staleTime, and the first-success buffer window
does not apply; otherwise transition to fetching retaining the previous
data (storing no queryFn, as the source passes none there), invoke the
fetch function and register the promise, capturing the previous data and
previous lastUpdatedAt for the settlement. -/
def backgroundQueryStart (c : QueryCache T) (k : Key) (fn : FnId)
    (now : Int) : QueryCache T × Obs :=
  match c.cache k with
  | none => (c, {})
  | some entry =>
    if c.promisesInFlight k then (c, {})
    else if entry.state.status ≠ Status.success ∧ entry.state.status ≠ Status.firstSuccess then
      (c, {})
    else if ¬ getDifferenceInMs entry.state.lastUpdatedAt now > c.staleTime then
      (c, {})
    else if entry.state.status = Status.firstSuccess ∧
        getDifferenceInMs entry.state.lastUpdatedAt now <
          FIRST_FETCH_SUCCESS_BACKGROUND_FETCH_BUFFER_WINDOW_MS then
      (c, {})
    else
      let c1 := c.set k ⟨Status.fetching, entry.state.data, none, now⟩ none
      ({ c1.setInFlight k true with
          pending := c1.pending ++
            [(k, Pending.background entry.state.data entry.state.lastUpdatedAt fn)] },
        ⟨[k], [fn], none⟩)

/-- QueryCache.fetchQuery: direct fetch when no entry exists, background
fetch otherwise (initialData is only forwarded to the direct path). -/
def fetchQuery (c : QueryCache T) (k : Key) (fn : FnId)
    (initialData : Option T) (now : Int) : QueryCache T × Obs :=
  match c.cache k with
  | none => directQueryStart c k fn initialData now
  | some _ => backgroundQueryStart c k fn now

/-- QueryCache.refetchQuery: throw when no queryFn is recorded for the
key, else directly trigger a direct fetch with the recorded queryFn. -/
def refetchQuery (c : QueryCache T) (k : Key) (now : Int) :
    QueryCache T × Obs :=
  match c.cache k with
  | some e =>
    match e.queryFn with
    | some fn => directQueryStart c k fn none now
    | none => (c, ⟨[], [], some "No queryFn found for queryKey"⟩)
  | none => (c, ⟨[], [], some "No queryFn found for queryKey"⟩)

/-- QueryCache.setData: unconditional overwrite to a success state with
the given data, the current timestamp and the previously recorded
queryFn, then notify. -/
def setData (c : QueryCache T) (k : Key) (d : T) (now : Int) :
    QueryCache T × Obs :=
  (c.set k ⟨Status.success, some d, none, now⟩
      ((c.cache k).bind (fun e => e.queryFn)),
    ⟨[k], [], none⟩)

/-- QueryCache.cancelQuery: when a promise is in flight and the entry
exists, delete the in-flight registration and rewrite the entry to idle,
keeping its data, clearing the error and marking the timestamp
force-stale.  The pending continuation itself is not removed: the
underlying promise still settles later. -/
def cancelQuery (c : QueryCache T) (k : Key) : QueryCache T × Obs :=
  match c.cache k with
  | some entry =>
    if c.promisesInFlight k then
      ((c.setInFlight k false).set k
          ⟨Status.idle, entry.state.data, none, FORCE_STALE_TIME⟩ entry.queryFn,
        ⟨[k], [], none⟩)
    else (c, {})
  | none => (c, {})

/-- QueryCache.invalidateQuery: when the entry exists, rewrite it to a
success state retaining its data with a force-stale timestamp and notify;
then, when a queryFn is recorded, run the background-fetch path. -/
def invalidateQuery (c : QueryCache T) (k : Key) (now : Int) :
    QueryCache T × Obs :=
  match c.cache k with
  | none => (c, {})
  | some entry =>
    let c1 := c.set k ⟨Status.success, entry.state.data, none, FORCE_STALE_TIME⟩
      entry.queryFn
    match entry.queryFn with
    | some fn =>
      let r := backgroundQueryStart c1 k fn now
      (r.1, Obs.seq ⟨[k], [], none⟩ r.2)
    | none => (c1, ⟨[k], [], none⟩)

/-- Settlement of the pending continuation at position i with the given
promise outcome: the finallyCb of handlePromise deletes the in-flight
registration unconditionally, then the closure writes the outcome state.
A direct fetch writes error/first-success/success as captured; a
background fetch silently restores the captured previous data and
timestamp on rejection.  Neither rethrows, so nothing is surfaced. -/
def settleAt (c : QueryCache T) (i : Nat) (outcome : Except Err T)
    (now : Int) : QueryCache T × Obs :=
  match c.pending.get? i with
  | none => (c, {})
  | some (k, p) =>
    let c0 := { c.setInFlight k false with pending := c.pending.eraseIdx i }
    match p, outcome with
    | Pending.direct _ fn, Except.error e =>
      (c0.set k ⟨Status.error, none, some e, FORCE_STALE_TIME⟩ (some fn),
        ⟨[k], [], none⟩)
    | Pending.direct hadData fn, Except.ok d =>
      (c0.set k
          ⟨if hadData then Status.success else Status.firstSuccess, some d, none, now⟩
          (some fn),
        ⟨[k], [], none⟩)
    | Pending.background prevData prevLast fn, Except.error _ =>
      (c0.set k ⟨Status.success, prevData, none, prevLast⟩ (some fn),
        ⟨[k], [], none⟩)
    | Pending.background _ _ fn, Except.ok d =>
      (c0.set k ⟨Status.success, some d, none, now⟩ (some fn),
        ⟨[k], [], none⟩)

/-- One step of the engine, as invokable by consumers and the timer and
promise machinery. -/
inductive Op (T : Type) where
  | subscribe (k : Key) (cb : Nat)
  | unsubscribe (k : Key) (cb : Nat)
  | fetchQuery (k : Key) (fn : FnId) (initialData : Option T) (now : Int)
  | refetchQuery (k : Key) (now : Int)
  | setData (k : Key) (d : T) (now : Int)
  | invalidateQuery (k : Key) (now : Int)
  | cancelQuery (k : Key)
  | settle (i : Nat) (outcome : Except Err T) (now : Int)
  | gcFire (k : Key)
  | clear

/-- Apply one step to a cache state, producing the new state and the
observations of the step. -/
def Op.apply : Op T → QueryCache T → QueryCache T × Obs
  | Op.subscribe k cb, c => (RQ.subscribe c k cb, {})
  | Op.unsubscribe k cb, c => (RQ.unsubscribe c k cb, {})
  | Op.fetchQuery k fn i now, c => RQ.fetchQuery c k fn i now
  | Op.refetchQuery k now, c => RQ.refetchQuery c k now
  | Op.setData k d now, c => RQ.setData c k d now
  | Op.invalidateQuery k now, c => RQ.invalidateQuery c k now
  | Op.cancelQuery k, c => RQ.cancelQuery c k
  | Op.settle i o now, c => RQ.settleAt c i o now
  | Op.gcFire k, c => (RQ.gcFire c k, {})
  | Op.clear, c => (RQ.clearAll c, {})

/-- The key a step operates on; for a settlement it is the key of the
pending continuation it runs, and clear has no key. -/
def Op.keyOf : Op T → QueryCache T → Option Key
  | Op.subscribe k _, _ => some k
  | Op.unsubscribe k _, _ => some k
  | Op.fetchQuery k _ _ _, _ => some k
  | Op.refetchQuery k _, _ => some k
  | Op.setData k _ _, _ => some k
  | Op.invalidateQuery k _, _ => some k
  | Op.cancelQuery k, _ => some k
  | Op.settle i _ _, c => (c.pending.get? i).map (fun x => x.1)
  | Op.gcFire k, _ => some k
  | Op.clear, _ => none

/-- Whether a step is the whole-cache clear. -/
def Op.isClear : Op T → Bool
  | Op.clear => true
  | _ => false

/-- Run a sequence of steps from a state, keeping only the state. -/
def run (c : QueryCache T) (ops : List (Op T)) : QueryCache T :=
  ops.foldl (fun s op => (op.apply s).1) c

/-- Apply a list of fetchQuery calls (fn, initialData, now) for one key in
order, accumulating how many fetch-function invocations they perform. -/
def fetchMany (c : QueryCache T) (k : Key) :
    List (FnId × Option T × Int) → QueryCache T × Nat
  | [] => (c, 0)
  | call :: rest =>
    let r := RQ.fetchQuery c k call.1 call.2.1 call.2.2
    let r' := fetchMany r.1 k rest
    (r'.1, r.2.invoked.length + r'.2)

/-- Events of one run of the mutate function of use-mutation.ts: state
writes and callback invocations, in execution order. -/
inductive MEvent where
  | callOnMutate
  | setStatusLoading
  | callMutationFn
  | setStatusSuccess
  | setStatusError
  | callOnSuccess
  | callOnError
  | callOnSettled
deriving DecidableEq, Repr

/-- Which optional callbacks a useMutation caller provided. -/
structure MutationCallbacks where
  hasOnMutate : Bool
  hasOnSuccess : Bool
  hasOnError : Bool
  hasOnSettled : Bool

/-- use-mutation.ts mutate: the ordered sequence of state writes and
callback invocations of one mutation run, as a function of the provided
callbacks and of the mutation function outcome.  Callbacks themselves are
assumed not to throw, per the source intent (a throwing success-path
callback would be funneled into the catch branch). -/
def mutateTrace (opts : MutationCallbacks) (outcome : Except Err T) :
    List MEvent :=
  (if opts.hasOnMutate then [MEvent.callOnMutate] else []) ++
  [MEvent.setStatusLoading, MEvent.callMutationFn] ++
  (match outcome with
   | Except.ok _ =>
     [MEvent.setStatusSuccess] ++
     (if opts.hasOnSuccess then [MEvent.callOnSuccess] else []) ++
     (if opts.hasOnSettled then [MEvent.callOnSettled] else [])
   | Except.error _ =>
     [MEvent.setStatusError] ++
     (if opts.hasOnError then [MEvent.callOnError] else []) ++
     (if opts.hasOnSettled then [MEvent.callOnSettled] else []))

/-- Payload discipline of one entry state: loading and error states carry
no data, and a first-success state always carries data. -/
def EntryInv (st : QueryState T) : Prop :=
  (st.status = Status.loading → st.data = none) ∧
  (st.status = Status.error → st.data = none) ∧
  (st.status = Status.firstSuccess → st.data.isSome = true)

/-- Payload discipline of every entry of a cache state. -/
def CacheInv (c : QueryCache T) : Prop :=
  ∀ k e, c.cache k = some e → EntryInv e.state

/-- Equality of the per-key registries of two cache states at one key. -/
def FrameAt (c c' : QueryCache T) (q : Key) : Prop :=
  c'.cache q = c.cache q ∧
  c'.promisesInFlight q = c.promisesInFlight q ∧
  c'.subscribers q = c.subscribers q ∧
  c'.gcTimeouts q = c.gcTimeouts q

lemma cacheInv_set {c : QueryCache T} {k st fn} (h : CacheInv c)
    (hst : EntryInv st) : CacheInv (c.set k st fn) := by
  intro q e hq
  by_cases hqk : q = k
  · subst hqk
    simp [QueryCache.set] at hq
    rw [← hq]
    exact hst
  · simp [QueryCache.set, hqk] at hq
    exact h q e hq

lemma cacheInv_directQueryStart {c : QueryCache T} {k fn i now}
    (h : CacheInv c) : CacheInv (directQueryStart c k fn i now).1 := by
  simp only [directQueryStart]
  split
  · exact h
  · split
    · next hcond =>
      exact cacheInv_set h ⟨by simp, by simp, fun _ => hcond.1⟩
    · exact cacheInv_set h ⟨fun _ => rfl, by simp, by simp⟩

lemma cacheInv_backgroundQueryStart {c : QueryCache T} {k fn now}
    (h : CacheInv c) : CacheInv (backgroundQueryStart c k fn now).1 := by
  unfold backgroundQueryStart
  split
  · exact h
  · split
    · exact h
    · split
      · exact h
      · split
        · exact h
        · split
          · exact h
          · exact cacheInv_set h ⟨by simp, by simp, by simp⟩

lemma cacheInv_settleAt {c : QueryCache T} {i outcome now}
    (h : CacheInv c) : CacheInv (settleAt c i outcome now).1 := by
  unfold settleAt
  split
  · exact h
  · next k p heq =>
    have h0 : CacheInv
        ({ c.setInFlight k false with pending := c.pending.eraseIdx i } :
          QueryCache T) := h
    split
    · exact cacheInv_set h0 ⟨by simp, fun _ => rfl, by simp⟩
    · next hadData _ _ =>
      cases hadData
      · exact cacheInv_set h0 ⟨by simp, by simp, fun _ => rfl⟩
      · exact cacheInv_set h0 ⟨by simp, by simp, by simp⟩
    · exact cacheInv_set h0 ⟨by simp, by simp, by simp⟩
    · exact cacheInv_set h0 ⟨by simp, by simp, by simp⟩

lemma cacheInv_apply (op : Op T) {c : QueryCache T} (h : CacheInv c) :
    CacheInv (op.apply c).1 := by
  cases op with
  | subscribe k cb => exact h
  | unsubscribe k cb =>
    show CacheInv (RQ.unsubscribe c k cb)
    simp only [RQ.unsubscribe]
    split
    · exact h
    · split
      · exact h
      · exact h
  | fetchQuery k fn i now =>
    show CacheInv (RQ.fetchQuery c k fn i now).1
    unfold RQ.fetchQuery
    split
    · exact cacheInv_directQueryStart h
    · exact cacheInv_backgroundQueryStart h
  | refetchQuery k now =>
    show CacheInv (RQ.refetchQuery c k now).1
    unfold RQ.refetchQuery
    split
    · split
      · exact cacheInv_directQueryStart h
      · exact h
    · exact h
  | setData k d now =>
    exact cacheInv_set h ⟨by simp, by simp, by simp⟩
  | invalidateQuery k now =>
    show CacheInv (RQ.invalidateQuery c k now).1
    unfold RQ.invalidateQuery
    split
    · exact h
    · split
      · exact cacheInv_backgroundQueryStart
          (cacheInv_set h ⟨by simp, by simp, by simp⟩)
      · exact cacheInv_set h ⟨by simp, by simp, by simp⟩
  | cancelQuery k =>
    show CacheInv (RQ.cancelQuery c k).1
    unfold RQ.cancelQuery
    split
    · split
      · exact cacheInv_set h ⟨by simp, by simp, by simp⟩
      · exact h
    · exact h
  | settle i o now => exact cacheInv_settleAt h
  | gcFire k =>
    show CacheInv (RQ.gcFire c k)
    unfold RQ.gcFire
    split
    · intro q e hq
      by_cases hqk : q = k
      · subst hqk; simp at hq
      · simp [hqk] at hq
        exact h q e hq
    · exact h
  | clear =>
    show CacheInv (clearAll c)
    intro q e hq
    simp [clearAll] at hq

lemma cacheInv_run {c : QueryCache T} (ops : List (Op T)) (h : CacheInv c) :
    CacheInv (run c ops) := by
  induction ops generalizing c with
  | nil => exact h
  | cons op rest ih => exact ih (cacheInv_apply op h)

lemma frameAt_refl {c : QueryCache T} {q : Key} : FrameAt c c q :=
  ⟨rfl, rfl, rfl, rfl⟩

lemma frameAt_set {c : QueryCache T} {k q st fn} (h : q ≠ k) :
    FrameAt c (c.set k st fn) q :=
  ⟨by simp [QueryCache.set, h], rfl, rfl, rfl⟩

lemma frameAt_directQueryStart {c : QueryCache T} {k q fn i now}
    (h : q ≠ k) : FrameAt c (directQueryStart c k fn i now).1 q := by
  simp only [directQueryStart]
  split
  · exact frameAt_refl
  · split
    · exact frameAt_set h
    · exact ⟨by simp [QueryCache.set, QueryCache.setInFlight, h],
        by simp [QueryCache.set, QueryCache.setInFlight, h], rfl, rfl⟩

lemma frameAt_backgroundQueryStart {c : QueryCache T} {k q fn now}
    (h : q ≠ k) : FrameAt c (backgroundQueryStart c k fn now).1 q := by
  simp only [backgroundQueryStart]
  split
  · exact frameAt_refl
  · split
    · exact frameAt_refl
    · split
      · exact frameAt_refl
      · split
        · exact frameAt_refl
        · split
          · exact frameAt_refl
          · exact ⟨by simp [QueryCache.set, QueryCache.setInFlight, h],
              by simp [QueryCache.set, QueryCache.setInFlight, h], rfl, rfl⟩

lemma frameAt_trans {c c' c'' : QueryCache T} {q : Key}
    (h1 : FrameAt c c' q) (h2 : FrameAt c' c'' q) : FrameAt c c'' q :=
  ⟨h2.1.trans h1.1, h2.2.1.trans h1.2.1, h2.2.2.1.trans h1.2.2.1,
    h2.2.2.2.trans h1.2.2.2⟩

lemma mem_notified_directQueryStart {c : QueryCache T} {k q fn i now}
    (h : q ∈ (directQueryStart c k fn i now).2.notified) : q = k := by
  simp only [directQueryStart] at h
  split at h
  · simp at h
  · split at h
    · simp at h; exact h
    · simp at h; exact h

lemma mem_notified_backgroundQueryStart {c : QueryCache T} {k q fn now}
    (h : q ∈ (backgroundQueryStart c k fn now).2.notified) : q = k := by
  simp only [backgroundQueryStart] at h
  split at h
  · simp at h
  · split at h
    · simp at h
    · split at h
      · simp at h
      · split at h
        · simp at h
        · split at h
          · simp at h
          · simp at h; exact h

lemma frameAt_settleAt {c : QueryCache T} {i : Nat} {outcome now q}
    (h : (c.pending.get? i).map (fun x => x.1) ≠ some q) :
    FrameAt c (settleAt c i outcome now).1 q := by
  simp only [settleAt]
  split
  · exact frameAt_refl
  · next k p hp =>
    have hqk : q ≠ k := by
      intro hh
      subst hh
      exact h (by rw [hp]; rfl)
    split <;>
      exact ⟨by simp [QueryCache.set, QueryCache.setInFlight, hqk],
        by simp [QueryCache.set, QueryCache.setInFlight, hqk], rfl, rfl⟩

lemma mem_notified_settleAt {c : QueryCache T} {i : Nat} {outcome now q}
    (h : q ∈ (settleAt c i outcome now).2.notified) :
    (c.pending.get? i).map (fun x => x.1) = some q := by
  simp only [settleAt] at h
  split at h
  · simp at h
  · next k p hp =>
    rw [hp]
    split at h <;> (simp at h; simp [h])

lemma directQueryStart_inflight {c : QueryCache T} {k} (fn i now)
    (h : c.promisesInFlight k = true) :
    directQueryStart c k fn i now = (c, {}) := by
  simp [directQueryStart, h]

lemma backgroundQueryStart_inflight {c : QueryCache T} {k} (fn now)
    (h : c.promisesInFlight k = true) :
    backgroundQueryStart c k fn now = (c, {}) := by
  rcases hc : c.cache k with _ | e
  · simp [backgroundQueryStart, hc]
  · simp [backgroundQueryStart, hc, h]

lemma fetchQuery_inflight {c : QueryCache T} {k} (fn i now)
    (h : c.promisesInFlight k = true) :
    RQ.fetchQuery c k fn i now = (c, {}) := by
  rcases hc : c.cache k with _ | e
  · simp only [RQ.fetchQuery, hc]
    exact directQueryStart_inflight fn i now h
  · simp only [RQ.fetchQuery, hc]
    exact backgroundQueryStart_inflight fn now h

lemma fetchMany_inflight {c : QueryCache T} {k}
    (h : c.promisesInFlight k = true) :
    ∀ calls, fetchMany c k calls = (c, 0) := by
  intro calls
  induction calls with
  | nil => rfl
  | cons call rest ih =>
    show fetchMany c k (call :: rest) = (c, 0)
    simp only [fetchMany, fetchQuery_inflight call.1 call.2.1 call.2.2 h, ih]
    rfl

lemma directQueryStart_fresh {c : QueryCache T} {k} (fn now)
    (hin : c.promisesInFlight k = false) (hc : c.cache k = none) :
    directQueryStart c k fn none now =
      ({ (c.set k ⟨Status.loading, none, none, now⟩ none).setInFlight k true with
          pending := c.pending ++ [(k, Pending.direct false fn)] },
        ⟨[k], [fn], none⟩) := by
  simp [directQueryStart, hin, hc, dataTruthy, QueryCache.set, QueryCache.setInFlight]

lemma backgroundQueryStart_fetches {c : QueryCache T} {k entry} (fn now)
    (hc : c.cache k = some entry)
    (hin : c.promisesInFlight k = false)
    (hst : entry.state.status = Status.success ∨
      entry.state.status = Status.firstSuccess)
    (hstale : getDifferenceInMs entry.state.lastUpdatedAt now > c.staleTime)
    (hbuf : ¬(entry.state.status = Status.firstSuccess ∧
      getDifferenceInMs entry.state.lastUpdatedAt now <
        FIRST_FETCH_SUCCESS_BACKGROUND_FETCH_BUFFER_WINDOW_MS)) :
    backgroundQueryStart c k fn now =
      ({ (c.set k ⟨Status.fetching, entry.state.data, none, now⟩ none).setInFlight
            k true with
          pending := c.pending ++
            [(k, Pending.background entry.state.data entry.state.lastUpdatedAt fn)] },
        ⟨[k], [fn], none⟩) := by
  have hst' : ¬(entry.state.status ≠ Status.success ∧
      entry.state.status ≠ Status.firstSuccess) := by
    rcases hst with h | h <;> simp [h]
  simp [backgroundQueryStart, hc, hin, hst', hstale, hbuf,
    QueryCache.set, QueryCache.setInFlight]

/-- C10. Per-key isolation: every keyed step (fetchQuery, refetchQuery,
setData, invalidateQuery, cancelQuery, subscribe, unsubscribe, a promise
settlement, a GC timer fire) leaves the cache entry, in-flight
registration, subscriber set and pending GC timer of every other key
unchanged and notifies no subscriber of another key; clear is the only
step exempted. -/
theorem per_key_isolation (op : Op T) (c : QueryCache T) (q : Key)
    (hclear : op.isClear = false) (hk : op.keyOf c ≠ some q) :
    FrameAt c (op.apply c).1 q ∧ q ∉ (op.apply c).2.notified := by
  cases op with
  | subscribe k cb =>
    have hqk : q ≠ k := by intro hh; subst hh; exact hk rfl
    refine ⟨⟨rfl, rfl, ?_, rfl⟩, ?_⟩
    · show (RQ.subscribe c k cb).subscribers q = c.subscribers q
      simp [RQ.subscribe, hqk]
    · show q ∉ ({} : Obs).notified
      simp
  | unsubscribe k cb =>
    have hqk : q ≠ k := by intro hh; subst hh; exact hk rfl
    constructor
    · show FrameAt c (RQ.unsubscribe c k cb) q
      simp only [RQ.unsubscribe]
      split
      · exact frameAt_refl
      · split
        · exact ⟨rfl, rfl, by simp [hqk], by simp [hqk]⟩
        · exact ⟨rfl, rfl, by simp [hqk], rfl⟩
    · show q ∉ ({} : Obs).notified
      simp
  | fetchQuery k fn i now =>
    have hqk : q ≠ k := by intro hh; subst hh; exact hk rfl
    constructor
    · show FrameAt c (RQ.fetchQuery c k fn i now).1 q
      rcases hc : c.cache k with _ | e
      · simp only [RQ.fetchQuery, hc]
        exact frameAt_directQueryStart hqk
      · simp only [RQ.fetchQuery, hc]
        exact frameAt_backgroundQueryStart hqk
    · intro hmem
      rcases hc : c.cache k with _ | e
      · rw [show (Op.fetchQuery k fn i now).apply c = RQ.fetchQuery c k fn i now
            from rfl] at hmem
        simp only [RQ.fetchQuery, hc] at hmem
        exact hqk (mem_notified_directQueryStart hmem)
      · rw [show (Op.fetchQuery k fn i now).apply c = RQ.fetchQuery c k fn i now
            from rfl] at hmem
        simp only [RQ.fetchQuery, hc] at hmem
        exact hqk (mem_notified_backgroundQueryStart hmem)
  | refetchQuery k now =>
    have hqk : q ≠ k := by intro hh; subst hh; exact hk rfl
    constructor
    · show FrameAt c (RQ.refetchQuery c k now).1 q
      simp only [RQ.refetchQuery]
      split
      · split
        · exact frameAt_directQueryStart hqk
        · exact frameAt_refl
      · exact frameAt_refl
    · intro hmem
      rw [show (Op.refetchQuery k now).apply c = RQ.refetchQuery c k now
          from rfl] at hmem
      simp only [RQ.refetchQuery] at hmem
      split at hmem
      · split at hmem
        · exact hqk (mem_notified_directQueryStart hmem)
        · simp at hmem
      · simp at hmem
  | setData k d now =>
    have hqk : q ≠ k := by intro hh; subst hh; exact hk rfl
    refine ⟨frameAt_set hqk, ?_⟩
    show q ∉ [k]
    simp [hqk]
  | invalidateQuery k now =>
    have hqk : q ≠ k := by intro hh; subst hh; exact hk rfl
    constructor
    · show FrameAt c (RQ.invalidateQuery c k now).1 q
      simp only [RQ.invalidateQuery]
      split
      · exact frameAt_refl
      · split
        · exact frameAt_trans (frameAt_set hqk)
            (frameAt_backgroundQueryStart hqk)
        · exact frameAt_set hqk
    · intro hmem
      rw [show (Op.invalidateQuery k now).apply c = RQ.invalidateQuery c k now
          from rfl] at hmem
      simp only [RQ.invalidateQuery] at hmem
      split at hmem
      · simp at hmem
      · split at hmem
        · simp [Obs.seq] at hmem
          rcases hmem with hmem | hmem
          · exact hqk hmem
          · exact hqk (mem_notified_backgroundQueryStart hmem)
        · simp at hmem
          exact hqk hmem
  | cancelQuery k =>
    have hqk : q ≠ k := by intro hh; subst hh; exact hk rfl
    constructor
    · show FrameAt c (RQ.cancelQuery c k).1 q
      simp only [RQ.cancelQuery]
      split
      · split
        · exact ⟨by simp [QueryCache.set, QueryCache.setInFlight, hqk],
            by simp [QueryCache.set, QueryCache.setInFlight, hqk], rfl, rfl⟩
        · exact frameAt_refl
      · exact frameAt_refl
    · intro hmem
      rw [show (Op.cancelQuery k).apply c = RQ.cancelQuery c k from rfl] at hmem
      simp only [RQ.cancelQuery] at hmem
      split at hmem
      · split at hmem
        · simp at hmem
          exact hqk hmem
        · simp at hmem
      · simp at hmem
  | settle i o now =>
    have hknot : (c.pending.get? i).map (fun x => x.1) ≠ some q := hk
    refine ⟨frameAt_settleAt hknot, ?_⟩
    intro hmem
    exact hknot (mem_notified_settleAt hmem)
  | gcFire k =>
    have hqk : q ≠ k := by intro hh; subst hh; exact hk rfl
    constructor
    · show FrameAt c (RQ.gcFire c k) q
      simp only [RQ.gcFire]
      split
      · exact ⟨by simp [hqk], by simp [hqk], by simp [hqk], by simp [hqk]⟩
      · exact frameAt_refl
    · show q ∉ ({} : Obs).notified
      simp
  | clear =>
    simp [Op.isClear] at hclear

/-- C10 witness: concrete instance of per_key_isolation for a setData on
one key, observed at a different key of a freshly constructed cache. -/
theorem per_key_isolation_witness :
    FrameAt (QueryCache.init Int 0 0)
      ((Op.setData "a" (1 : Int) 0).apply (QueryCache.init Int 0 0)).1 "b" ∧
    "b" ∉ ((Op.setData "a" (1 : Int) 0).apply (QueryCache.init Int 0 0)).2.notified :=
  per_key_isolation (Op.setData "a" 1 0) (QueryCache.init Int 0 0) "b" rfl
    (by decide)

/-- Cache with default configuration, as built by `new QueryCache()`. -/
def emptyCache : QueryCache Int :=
  QueryCache.init Int DEFAULT_STALE_TIME DEFAULT_GC_TIME

/-- Cache after one fetchQuery for key k whose promise is still in
flight. -/
def fetchedOnceCache : QueryCache Int :=
  (RQ.fetchQuery emptyCache "k" 1 none 0).1

/-- C1. Deduplication: the in-flight registry holds at most one promise
per key, and while one is registered both directQuery and backgroundQuery
return unchanged without invoking the fetch function, so any sequence of
further fetchQuery calls for the key performs zero invocations; from a
state with no entry and no in-flight promise, a fetchQuery invokes the
fetch function exactly once and registers the promise, after which any
number of concurrent fetchQuery calls add zero invocations. -/
theorem dedup_single_flight (c : QueryCache T) (k : Key) :
    (c.promisesInFlight k = true →
      (∀ fn i now, directQueryStart c k fn i now = (c, {})) ∧
      (∀ fn now, backgroundQueryStart c k fn now = (c, {})) ∧
      (∀ calls, fetchMany c k calls = (c, 0))) ∧
    (c.promisesInFlight k = false → c.cache k = none →
      ∀ fn now calls,
        (RQ.fetchQuery c k fn none now).2.invoked = [fn] ∧
        (RQ.fetchQuery c k fn none now).1.promisesInFlight k = true ∧
        fetchMany (RQ.fetchQuery c k fn none now).1 k calls =
          ((RQ.fetchQuery c k fn none now).1, 0)) := by
  constructor
  · intro h
    exact ⟨fun fn i now => directQueryStart_inflight fn i now h,
      fun fn now => backgroundQueryStart_inflight fn now h,
      fetchMany_inflight h⟩
  · intro hin hc fn now calls
    have hd := directQueryStart_fresh fn now hin hc
    have hq : RQ.fetchQuery c k fn none now = directQueryStart c k fn none now := by
      simp only [RQ.fetchQuery, hc]
    rw [hq, hd]
    refine ⟨rfl, by simp [QueryCache.setInFlight], ?_⟩
    exact fetchMany_inflight (by simp [QueryCache.setInFlight]) calls

/-- C1 witness: concrete instances of both halves of dedup_single_flight,
at a state holding an in-flight promise for the key and at the empty
state. -/
theorem dedup_single_flight_witness :
    (directQueryStart fetchedOnceCache "k" 2 none 5 = (fetchedOnceCache, {}) ∧
      backgroundQueryStart fetchedOnceCache "k" 2 5 = (fetchedOnceCache, {}) ∧
      fetchMany fetchedOnceCache "k" [(2, none, 5), (3, none, 6)] =
        (fetchedOnceCache, 0)) ∧
    ((RQ.fetchQuery emptyCache "k" 1 none 0).2.invoked = [1] ∧
      (RQ.fetchQuery emptyCache "k" 1 none 0).1.promisesInFlight "k" = true ∧
      fetchMany (RQ.fetchQuery emptyCache "k" 1 none 0).1 "k" [(2, none, 5)] =
        ((RQ.fetchQuery emptyCache "k" 1 none 0).1, 0)) := by
  constructor
  · have h := (dedup_single_flight fetchedOnceCache "k").1 (by decide)
    exact ⟨h.1 2 none 5, h.2.1 2 5, h.2.2 [(2, none, 5), (3, none, 6)]⟩
  · exact (dedup_single_flight emptyCache "k").2 rfl rfl 1 0 [(2, none, 5)]

/-- C2. Silent background failure: when an entry in a success-family
state is revalidated by a background fetch whose fetch function rejects,
the entry afterwards is a success state with exactly the previous data
and exactly the previous lastUpdatedAt, the in-flight registration is
gone, and neither the start nor the settlement surfaces the rejection to
the caller. -/
theorem background_failure_silent {c : QueryCache T} {k entry}
    (fn now e now2)
    (hc : c.cache k = some entry)
    (hin : c.promisesInFlight k = false)
    (hst : entry.state.status = Status.success ∨
      entry.state.status = Status.firstSuccess)
    (hstale : getDifferenceInMs entry.state.lastUpdatedAt now > c.staleTime)
    (hbuf : ¬(entry.state.status = Status.firstSuccess ∧
      getDifferenceInMs entry.state.lastUpdatedAt now <
        FIRST_FETCH_SUCCESS_BACKGROUND_FETCH_BUFFER_WINDOW_MS)) :
    ((settleAt (backgroundQueryStart c k fn now).1 c.pending.length
        (Except.error e) now2).1.cache k =
      some ⟨⟨Status.success, entry.state.data, none, entry.state.lastUpdatedAt⟩,
        some fn⟩) ∧
    (settleAt (backgroundQueryStart c k fn now).1 c.pending.length
        (Except.error e) now2).1.promisesInFlight k = false ∧
    (backgroundQueryStart c k fn now).2.surfaced = none ∧
    (settleAt (backgroundQueryStart c k fn now).1 c.pending.length
        (Except.error e) now2).2.surfaced = none := by
  rw [backgroundQueryStart_fetches fn now hc hin hst hstale hbuf]
  have hp : ((c.set k ⟨Status.fetching, entry.state.data, none, now⟩ none).setInFlight
        k true).pending ++
      [(k, Pending.background entry.state.data entry.state.lastUpdatedAt fn)] =
      c.pending ++
      [(k, Pending.background entry.state.data entry.state.lastUpdatedAt fn)] := rfl
  simp only [settleAt, hp, List.get?_concat_length]
  simp [QueryCache.set, QueryCache.setInFlight]

/-- Cache whose key holds a success entry with data 3 set at time 0. -/
def setDataCache : QueryCache Int :=
  (RQ.setData emptyCache "k" 3 0).1

/-- C2 witness: concrete instance of background_failure_silent on a
success entry with data 3 and timestamp 0, revalidated at time 5 with a
rejecting fetch function. -/
theorem background_failure_silent_witness :
    ((settleAt (backgroundQueryStart setDataCache "k" 9 5).1
        setDataCache.pending.length (Except.error "boom") 6).1.cache "k" =
      some ⟨⟨Status.success, some 3, none, 0⟩, some 9⟩) ∧
    (settleAt (backgroundQueryStart setDataCache "k" 9 5).1
        setDataCache.pending.length (Except.error "boom") 6).1.promisesInFlight
        "k" = false ∧
    (backgroundQueryStart setDataCache "k" 9 5).2.surfaced = none ∧
    (settleAt (backgroundQueryStart setDataCache "k" 9 5).1
        setDataCache.pending.length (Except.error "boom") 6).2.surfaced =
      none :=
  @background_failure_silent Int _ setDataCache "k"
    ⟨⟨Status.success, some 3, none, 0⟩, none⟩ 9 5 "boom" 6 (by decide) rfl
    (Or.inl rfl) (by decide) (by decide)

/-- C3 counterexample: settling the pending direct fetch of a key with a
rejection writes the error state but surfaces nothing to the caller of
the direct fetch — the promise returned by directQuery/fetchQuery
resolves normally, refuting the claim that it rejects. -/
theorem direct_failure_not_rethrown_cex :
    fetchedOnceCache.pending = [("k", Pending.direct false 1)] ∧
    (settleAt fetchedOnceCache 0 (Except.error "boom") 7).2.surfaced = none ∧
    ((settleAt fetchedOnceCache 0 (Except.error "boom") 7).1.cache "k").map
      (fun x => x.state.status) = some Status.error := by
  decide

/-- C3 amended. Direct-fetch failure: settling a pending direct fetch
with a rejection value e writes an error entry holding e with data
cleared and the force-stale timestamp, removes the in-flight
registration, notifies the key, and surfaces nothing to the caller (the
direct-fetch promise resolves; the failure is visible only through the
error state). -/
theorem direct_failure_error_state {c : QueryCache T} {i : Nat}
    (k hadData fn e now)
    (hp : c.pending.get? i = some (k, Pending.direct hadData fn)) :
    (settleAt c i (Except.error e) now).1.cache k =
        some ⟨⟨Status.error, none, some e, FORCE_STALE_TIME⟩, some fn⟩ ∧
    (settleAt c i (Except.error e) now).1.promisesInFlight k = false ∧
    (settleAt c i (Except.error e) now).2.surfaced = none ∧
    (settleAt c i (Except.error e) now).2.notified = [k] := by
  simp only [settleAt, hp]
  simp [QueryCache.set, QueryCache.setInFlight]

/-- C3 witness: concrete instance of direct_failure_error_state at the
state holding one pending direct fetch for the key. -/
theorem direct_failure_error_state_witness :
    (settleAt fetchedOnceCache 0 (Except.error "nope") 9).1.cache "k" =
        some ⟨⟨Status.error, none, some "nope", FORCE_STALE_TIME⟩, some 1⟩ ∧
    (settleAt fetchedOnceCache 0 (Except.error "nope") 9).1.promisesInFlight
        "k" = false ∧
    (settleAt fetchedOnceCache 0 (Except.error "nope") 9).2.surfaced = none ∧
    (settleAt fetchedOnceCache 0 (Except.error "nope") 9).2.notified = ["k"] :=
  direct_failure_error_state "k" false 1 "nope" 9 (by decide)

/-- Cache with staleTime 10 whose key holds a success entry with data 1
and a force-stale timestamp (setData then invalidateQuery, no queryFn
recorded). -/
def forceStaleCache : QueryCache Int :=
  (RQ.invalidateQuery (RQ.setData (QueryCache.init Int 10 DEFAULT_GC_TIME)
    "k" 1 0).1 "k" 0).1

/-- C4 counterexample: at staleTime 10 and now 5, a success entry with
the force-stale sentinel timestamp meets every condition of the claim (no
in-flight promise, entry exists, success status, sentinel timestamp which
the claim counts as always stale, buffer window inapplicable), yet
backgroundQuery is a silent no-op invoking nothing, because the code only
tests now - FORCE_STALE_TIME > staleTime, which is 6 > 10 here. -/
theorem force_stale_not_always_stale_cex :
    forceStaleCache.staleTime = 10 ∧
    forceStaleCache.promisesInFlight "k" = false ∧
    forceStaleCache.cache "k" =
      some ⟨⟨Status.success, some 1, none, FORCE_STALE_TIME⟩, none⟩ ∧
    backgroundQueryStart forceStaleCache "k" 9 5 = (forceStaleCache, {}) :=
  ⟨rfl, rfl, by decide, rfl⟩

/-- C4 amended. Background-fetch guard: backgroundQuery invokes the fetch
function exactly when no promise is in flight for the key, an entry
exists, its status is success or first-success, the elapsed time since
lastUpdatedAt strictly exceeds staleTime (the force-stale sentinel makes
the elapsed time now + 1, hence stale only when now + 1 > staleTime), and
it is not the case that the status is first-success with elapsed time
still under the 250 ms buffer window; in every other case it changes
nothing, notifies nobody and invokes nothing. -/
theorem background_fetch_condition (c : QueryCache T) (k : Key) (fn : FnId)
    (now : Int) :
    ((backgroundQueryStart c k fn now).2.invoked ≠ [] ↔
      (c.promisesInFlight k = false ∧ ∃ entry, c.cache k = some entry ∧
        (entry.state.status = Status.success ∨
          entry.state.status = Status.firstSuccess) ∧
        getDifferenceInMs entry.state.lastUpdatedAt now > c.staleTime ∧
        ¬(entry.state.status = Status.firstSuccess ∧
          getDifferenceInMs entry.state.lastUpdatedAt now <
            FIRST_FETCH_SUCCESS_BACKGROUND_FETCH_BUFFER_WINDOW_MS))) ∧
    ((backgroundQueryStart c k fn now).2.invoked = [] →
      backgroundQueryStart c k fn now = (c, {})) := by
  rcases hc : c.cache k with _ | entry
  · refine ⟨?_, fun _ => by simp [backgroundQueryStart, hc]⟩
    simp [backgroundQueryStart, hc]
  · simp only [backgroundQueryStart, hc]
    split_ifs with h1 h2 h3 h4
    · refine ⟨⟨fun habs => absurd rfl habs, ?_⟩, fun _ => rfl⟩
      rintro ⟨hinf, -⟩
      simp [h1] at hinf
    · refine ⟨⟨fun habs => absurd rfl habs, ?_⟩, fun _ => rfl⟩
      rintro ⟨-, e, he, hst, -, -⟩
      injection he with he
      subst he
      rcases hst with h | h
      · exact (h2.1 h).elim
      · exact (h2.2 h).elim
    · refine ⟨⟨fun habs => absurd rfl habs, ?_⟩, fun _ => rfl⟩
      rintro ⟨-, e, he, -, -, hbuf⟩
      injection he with he
      subst he
      exact (hbuf h4).elim
    · constructor
      · constructor
        · intro _
          refine ⟨Bool.eq_false_iff.mpr h1, entry, rfl, ?_, h3, h4⟩
          rcases Decidable.em (entry.state.status = Status.success) with hs | hs
          · exact Or.inl hs
          · push_neg at h2
            exact Or.inr (h2 hs)
        · intro _
          simp
      · intro habs
        simp at habs
    · refine ⟨⟨fun habs => absurd rfl habs, ?_⟩, fun _ => rfl⟩
      rintro ⟨-, e, he, -, hstale, -⟩
      injection he with he
      subst he
      exact (h3 hstale).elim

/-- C4 witness: concrete instance of the no-op half of
background_fetch_condition at the force-stale state that defeats the
staleness test. -/
theorem background_fetch_condition_witness :
    backgroundQueryStart forceStaleCache "k" 9 5 = (forceStaleCache, {}) :=
  (background_fetch_condition forceStaleCache "k" 9 5).2 rfl

/-- Trace arming a GC timer by unsubscribing the only subscriber, then
re-subscribing before the timer fires, then the timer firing. -/
def resubscribeTrace : List (Op Int) :=
  [Op.setData "k" 5 0, Op.subscribe "k" 1, Op.unsubscribe "k" 1,
    Op.subscribe "k" 2, Op.gcFire "k"]

/-- C5. After re-subscribing while the GC timer armed by the last
unsubscribe is still pending, the key has one current subscriber and a
populated entry, yet the timer fire still deletes the entry and the
subscriber set: subscribe never disarms the pending timer, so a key with
a current subscriber is garbage-collected, contradicting the claim. -/
theorem gc_deletes_resubscribed_key :
    (run emptyCache (resubscribeTrace.take 4)).subscribers "k" = [2] ∧
    (run emptyCache (resubscribeTrace.take 4)).gcTimeouts "k" = true ∧
    (run emptyCache (resubscribeTrace.take 4)).cache "k" =
      some ⟨⟨Status.success, some 5, none, 0⟩, none⟩ ∧
    (run emptyCache resubscribeTrace).cache "k" = none ∧
    (run emptyCache resubscribeTrace).subscribers "k" = [] := by
  decide

/-- Trace reaching an idle entry that retains data: populate a success
entry, start a background revalidation for it, then cancel it. -/
def cancelFetchingTrace : List (Op Int) :=
  [Op.setData "k" 5 0, Op.fetchQuery "k" 7 none 10, Op.cancelQuery "k"]

/-- C6 counterexample: cancelling an in-flight background revalidation
leaves an idle entry that still carries the previous data, refuting the
claim that idle states never carry data. -/
theorem idle_retains_data_cex :
    (run emptyCache cancelFetchingTrace).cache "k" =
      some ⟨⟨Status.idle, some 5, none, FORCE_STALE_TIME⟩, none⟩ := by
  decide

/-- C6 amended. Payload invariant on all reachable states: every cache
entry reachable from the constructor state by any sequence of engine
steps satisfies: loading and error states never carry data, and
first-success states always carry data (idle can retain data after a
cancel, and success/fetching states without data are reachable through
invalidateQuery of a data-less entry). -/
theorem payload_invariant_reachable (T : Type) [JsTruthy T]
    (staleTime gcTime : Int) (ops : List (Op T)) :
    CacheInv (run (QueryCache.init T staleTime gcTime) ops) :=
  cacheInv_run ops (fun k e h => by simp [QueryCache.init] at h)

/-- C6 witness: concrete instance of payload_invariant_reachable on the
cancel trace. -/
theorem payload_invariant_reachable_witness :
    CacheInv (run (QueryCache.init Int DEFAULT_STALE_TIME DEFAULT_GC_TIME)
      cancelFetchingTrace) :=
  payload_invariant_reachable Int DEFAULT_STALE_TIME DEFAULT_GC_TIME
    cancelFetchingTrace

/-- Cache whose key holds an error entry with a recorded queryFn (a
direct fetch that rejected). -/
def errorEntryCache : QueryCache Int :=
  run emptyCache [Op.fetchQuery "k" 1 none 0, Op.settle 0 (Except.error "e") 1]

/-- C7 counterexample: invalidateQuery on an entry in the error state
(not a success-family state) does not leave the status and other fields
unchanged and does trigger a fetch: it rewrites the status (error becomes
success, then fetching via the background path) and invokes the recorded
fetch function. -/
theorem invalidate_changes_error_status_cex :
    (errorEntryCache.cache "k").map (fun x => x.state.status) =
      some Status.error ∧
    (RQ.invalidateQuery errorEntryCache "k" 2).2.invoked = [1] ∧
    ((RQ.invalidateQuery errorEntryCache "k" 2).1.cache "k").map
      (fun x => x.state.status) = some Status.fetching := by
  decide

/-- C7 amended. invalidateQuery on an existing entry notifies the key
first and rewrites the entry to a success state that retains the last
data, clears the error, and carries the force-stale timestamp — it does
not preserve a non-success status; it then runs the background-fetch path
exactly when a fetch function is recorded on the entry, so a fetch can be
triggered even from a non-success-family state (leaving a fetching entry
retaining the data). -/
theorem invalidate_marks_and_refetches {c : QueryCache T} {k entry}
    (now : Int) (hc : c.cache k = some entry) :
    (RQ.invalidateQuery c k now).2.notified.head? = some k ∧
    (entry.queryFn = none → (RQ.invalidateQuery c k now).2.invoked = []) ∧
    ((RQ.invalidateQuery c k now).2.invoked = [] →
      (RQ.invalidateQuery c k now).1.cache k =
        some ⟨⟨Status.success, entry.state.data, none, FORCE_STALE_TIME⟩,
          entry.queryFn⟩) ∧
    ((RQ.invalidateQuery c k now).2.invoked ≠ [] →
      ∃ fn, entry.queryFn = some fn ∧
        (RQ.invalidateQuery c k now).2.invoked = [fn] ∧
        (RQ.invalidateQuery c k now).1.cache k =
          some ⟨⟨Status.fetching, entry.state.data, none, now⟩, none⟩) := by
  rcases hfn : entry.queryFn with _ | fn
  · have hval : RQ.invalidateQuery c k now =
        (c.set k ⟨Status.success, entry.state.data, none, FORCE_STALE_TIME⟩
          none, ⟨[k], [], none⟩) := by
      simp only [RQ.invalidateQuery, hc, hfn]
    rw [hval]
    refine ⟨rfl, fun _ => rfl, fun _ => ?_, fun habs => (habs rfl).elim⟩
    simp [QueryCache.set]
  · have hc1 : (c.set k ⟨Status.success, entry.state.data, none,
        FORCE_STALE_TIME⟩ (some fn)).cache k =
        some ⟨⟨Status.success, entry.state.data, none, FORCE_STALE_TIME⟩,
          some fn⟩ := by
      simp [QueryCache.set]
    have hval : RQ.invalidateQuery c k now =
        ((backgroundQueryStart (c.set k ⟨Status.success, entry.state.data,
            none, FORCE_STALE_TIME⟩ (some fn)) k fn now).1,
          Obs.seq ⟨[k], [], none⟩
            (backgroundQueryStart (c.set k ⟨Status.success, entry.state.data,
              none, FORCE_STALE_TIME⟩ (some fn)) k fn now).2) := by
      simp only [RQ.invalidateQuery, hc, hfn]
    rw [hval]
    simp only [backgroundQueryStart, hc1]
    split_ifs with h1 h2 h3 h4
    · exact ⟨rfl, fun _ => rfl, fun _ => hc1,
        fun habs => by simp [Obs.seq] at habs⟩
    · exact ⟨rfl, fun _ => rfl, fun _ => hc1,
        fun habs => by simp [Obs.seq] at habs⟩
    · exact ⟨rfl, fun _ => rfl, fun _ => hc1,
        fun habs => by simp [Obs.seq] at habs⟩
    · refine ⟨rfl, fun hno => hno.elim, ?_, ?_⟩
      · intro habs
        simp [Obs.seq] at habs
      · intro _
        refine ⟨fn, rfl, by simp [Obs.seq], ?_⟩
        simp [QueryCache.set, QueryCache.setInFlight]
    · exact ⟨rfl, fun _ => rfl, fun _ => hc1,
        fun habs => by simp [Obs.seq] at habs⟩

/-- C7 witness: concrete instance of invalidate_marks_and_refetches on a
success entry with data 3, timestamp 0 and no recorded fetch function. -/
theorem invalidate_marks_and_refetches_witness :
    (RQ.invalidateQuery setDataCache "k" 4).2.notified.head? = some "k" ∧
    ((none : Option FnId) = none →
      (RQ.invalidateQuery setDataCache "k" 4).2.invoked = []) ∧
    ((RQ.invalidateQuery setDataCache "k" 4).2.invoked = [] →
      (RQ.invalidateQuery setDataCache "k" 4).1.cache "k" =
        some ⟨⟨Status.success, some 3, none, FORCE_STALE_TIME⟩, none⟩) ∧
    ((RQ.invalidateQuery setDataCache "k" 4).2.invoked ≠ [] →
      ∃ fn, (none : Option FnId) = some fn ∧
        (RQ.invalidateQuery setDataCache "k" 4).2.invoked = [fn] ∧
        (RQ.invalidateQuery setDataCache "k" 4).1.cache "k" =
          some ⟨⟨Status.fetching, some 3, none, 4⟩, none⟩) :=
  @invalidate_marks_and_refetches Int _ setDataCache "k"
    ⟨⟨Status.success, some 3, none, 0⟩, none⟩ 4 (by decide)

/-- Trace in which data 11 is recorded for the key, a later refetch
rejects (clearing the data), and a further refetch succeeds. -/
def refetchedTrace : List (Op Int) :=
  [Op.fetchQuery "k" 1 none 0, Op.settle 0 (Except.ok 11) 5,
    Op.refetchQuery "k" 300, Op.settle 0 (Except.error "boom") 305,
    Op.refetchQuery "k" 400, Op.settle 0 (Except.ok 22) 405]

/-- C8 counterexample: data 11 was recorded for the key earlier in the
trace, yet the final successful direct fetch still lands in first-success
rather than success, because the code only tests whether the entry
captured at fetch start had data (the rejected refetch had cleared it),
not whether data was ever recorded. -/
theorem first_success_after_data_recorded_cex :
    ((run emptyCache (refetchedTrace.take 2)).cache "k").map
      (fun x => x.state.data) = some (some 11) ∧
    ((run emptyCache refetchedTrace).cache "k").map
      (fun x => x.state.status) = some Status.firstSuccess := by
  decide

/-- C8 amended. Direct-fetch success: settling a pending direct fetch
with data d stores d with the settlement timestamp and clears the
in-flight registration, and the resulting status is first-success exactly
when the entry captured when the direct fetch started had no truthy
cached data — the source tests `!entry?.state.data`, JS truthiness, so an
absent entry, undefined data, and falsy cached data (such as 0) all yield
first-success, anything else success; the start phase records that
captured truthiness flag in the pending continuation. -/
theorem direct_success_first_iff_no_cached_data {c : QueryCache T}
    {i : Nat} (k : Key) (hadData : Bool) (fn : FnId) (d : T) (now : Int)
    (hp : c.pending.get? i = some (k, Pending.direct hadData fn)) :
    ((settleAt c i (Except.ok d) now).1.cache k =
      some ⟨⟨if hadData then Status.success else Status.firstSuccess,
        some d, none, now⟩, some fn⟩) ∧
    (settleAt c i (Except.ok d) now).1.promisesInFlight k = false ∧
    (∀ c' : QueryCache T, ∀ fn' i' now',
      (directQueryStart c' k fn' i' now').2.invoked ≠ [] →
      ((directQueryStart c' k fn' i' now').1.pending).get? c'.pending.length =
        some (k, Pending.direct
          (dataTruthy ((c'.cache k).bind (fun x => x.state.data))) fn')) := by
  refine ⟨?_, ?_, ?_⟩
  · simp only [settleAt, hp]
    simp [QueryCache.set]
  · simp only [settleAt, hp]
    simp [QueryCache.set, QueryCache.setInFlight]
  · intro c' fn' i' now' hinv
    simp only [directQueryStart] at hinv ⊢
    split_ifs at hinv ⊢ with hA hB
    · simp at hinv
    · simp at hinv
    · exact List.get?_concat_length _ _

/-- C8 witness: concrete instance of direct_success_first_iff_no_cached_data
at the state holding one pending direct fetch (captured without data), plus
the start-phase conjunct instantiated at the empty cache and at a cache
whose key holds the falsy cached value 0, which the source's truthiness
test also counts as no data (so the next settle is first-success). -/
theorem direct_success_first_witness :
    ((settleAt fetchedOnceCache 0 (Except.ok 11) 5).1.cache "k" =
      some ⟨⟨Status.firstSuccess, some 11, none, 5⟩, some 1⟩) ∧
    (settleAt fetchedOnceCache 0 (Except.ok 11) 5).1.promisesInFlight "k" =
      false ∧
    ((directQueryStart emptyCache "k" 1 none 0).1.pending).get?
        emptyCache.pending.length = some ("k", Pending.direct false 1) ∧
    ((directQueryStart (RQ.setData emptyCache "k" 0 0).1 "k" 1 none
        5).1.pending).get? (RQ.setData emptyCache "k" 0 0).1.pending.length =
      some ("k", Pending.direct false 1) := by
  have h := @direct_success_first_iff_no_cached_data Int _ fetchedOnceCache 0
    "k" false 1 11 5 (by decide)
  refine ⟨h.1, h.2.1, h.2.2 emptyCache 1 none 0 (by decide), ?_⟩
  exact h.2.2 (RQ.setData emptyCache "k" 0 0).1 1 none 5 (by decide)

/-- C9. Mutation callback ordering: in every mutation run with an
onSettled callback provided, whatever the mutation outcome and whichever
other callbacks are provided, onSettled runs exactly once and strictly
last (after the terminal state write and after onSuccess/onError), and
the terminal state write precedes the corresponding callback. -/
theorem mutation_settled_once_after_terminal (opts : MutationCallbacks)
    (outcome : Except Err T) (h : opts.hasOnSettled = true) :
    (mutateTrace opts outcome).count MEvent.callOnSettled = 1 ∧
    (mutateTrace opts outcome).getLast? = some MEvent.callOnSettled ∧
    (∀ d, outcome = Except.ok d → opts.hasOnSuccess = true →
      (mutateTrace opts outcome).indexOf MEvent.setStatusSuccess <
        (mutateTrace opts outcome).indexOf MEvent.callOnSuccess) ∧
    (∀ e, outcome = Except.error e → opts.hasOnError = true →
      (mutateTrace opts outcome).indexOf MEvent.setStatusError <
        (mutateTrace opts outcome).indexOf MEvent.callOnError) := by
  obtain ⟨hm, hs, he, hst⟩ := opts
  cases hst
  · cases h
  · cases outcome <;> cases hm <;> cases hs <;> cases he <;>
      refine ⟨by simp [mutateTrace], by simp [mutateTrace],
        fun d hd hs' => ?_, fun e' he' hz => ?_⟩ <;>
      simp_all [mutateTrace]

/-- C9 witness: concrete instance of mutation_settled_once_after_terminal
with every callback provided and a successful outcome. -/
theorem mutation_settled_once_witness :
    (mutateTrace ⟨true, true, true, true⟩ (Except.ok (0 : Int))).count
      MEvent.callOnSettled = 1 ∧
    (mutateTrace ⟨true, true, true, true⟩ (Except.ok (0 : Int))).getLast? =
      some MEvent.callOnSettled ∧
    (∀ d, (Except.ok 0 : Except Err Int) = Except.ok d →
      (⟨true, true, true, true⟩ : MutationCallbacks).hasOnSuccess = true →
      (mutateTrace ⟨true, true, true, true⟩
        (Except.ok (0 : Int))).indexOf MEvent.setStatusSuccess <
        (mutateTrace ⟨true, true, true, true⟩
          (Except.ok (0 : Int))).indexOf MEvent.callOnSuccess) ∧
    (∀ e, (Except.ok 0 : Except Err Int) = Except.error e →
      (⟨true, true, true, true⟩ : MutationCallbacks).hasOnError = true →
      (mutateTrace ⟨true, true, true, true⟩
        (Except.ok (0 : Int))).indexOf MEvent.setStatusError <
        (mutateTrace ⟨true, true, true, true⟩
          (Except.ok (0 : Int))).indexOf MEvent.callOnError) :=
  mutation_settled_once_after_terminal ⟨true, true, true, true⟩
    (Except.ok (0 : Int)) rfl

end RQ
